import Mathlib

/-!
Verification of the proxy-to-grafana bootstrap and identity-injection
pipeline, plus the logknob logging utility, against their specification.

The Go sources are shallowly embedded: HTTP headers become association
lists from canonical header names to value lists (Go's `http.Header` is a
map from canonical key to `[]string`, and `Header.Set` replaces the value
list with a singleton); fallible calls return `Except`; the bounded
readiness-poll loop becomes structural recursion on remaining attempts.
-/

/-- An HTTP header collection: canonical header keys paired with their
value lists, mirroring Go's `http.Header` (`map[string][]string`). -/
abbrev Header := List (String × List String)

/-- `Header.Set`: replace the value list of key `k` with the singleton
`[v]`, adding the key if absent. -/
def headerSet : Header → String → String → Header
  | [], k, v => [(k, [v])]
  | (k₀, vs) :: rest, k, v =>
    if k₀ = k then (k, [v]) :: rest else (k₀, vs) :: headerSet rest k v

/-- `Header.Values`-style lookup: the value list stored at key `k`
(`[]` when the key is absent). -/
def headerGet : Header → String → List String
  | [], _ => []
  | (k₀, vs) :: rest, k => if k₀ = k then vs else headerGet rest k

/-- The parts of `http.Request` that `modifyRequest` and the redirect
handler read or write: URL path, remote address, and headers. -/
structure Request where
  path : String
  remoteAddr : String
  header : Header
deriving DecidableEq

/-- `tailcfg.UserProfile`, restricted to the fields the proxy reads. -/
structure UserProfile where
  LoginName : String
  DisplayName : String
deriving DecidableEq

/-- The node part of a `WhoIs` response: its tag list. -/
structure Node where
  Tags : List String
deriving DecidableEq

/-- `apitype.WhoIsResponse`, restricted to the fields `getTailscaleUser`
reads: the node (for its tags) and the optional user profile. -/
structure WhoIsResponse where
  Node : Node
  UserProfile : Option UserProfile
deriving DecidableEq

/-- The three distinguishable failure classes of `getTailscaleUser`,
one per distinct `fmt.Errorf` message in the source:
`"failed to identify remote host: %w"` (wrapping the underlying error),
`"tagged nodes are not users"`, and `"failed to identify remote user"`. -/
inductive ResolutionError where
  | lookupFailed (underlying : String)
  | taggedPrincipal
  | unidentifiedUser
deriving DecidableEq

/-- `getTailscaleUser` from proxy-to-grafana.go: call `WhoIs` on the
peer address; fail if the call errors, if the node carries tags, or if
the profile is absent or has an empty login name; otherwise return the
profile. The external `WhoIs` call is a parameter. -/
def getTailscaleUser (whois : String → Except String WhoIsResponse)
    (ipPort : String) : Except ResolutionError UserProfile :=
  match whois ipPort with
  | .error e => .error (.lookupFailed e)
  | .ok w =>
    if w.Node.Tags.length ≠ 0 then .error .taggedPrincipal
    else
      match w.UserProfile with
      | none => .error .unidentifiedUser
      | some p =>
        if p.LoginName = "" then .error .unidentifiedUser else .ok p

/-- `modifyRequest` from proxy-to-grafana.go: on any path other than
`/login`, return the request unchanged; on `/login`, resolve the peer
identity and, on success, overwrite the `X-Webauth-User` and
`X-Webauth-Name` headers; on failure, log and return unchanged. -/
def modifyRequest (whois : String → Except String WhoIsResponse)
    (req : Request) : Request :=
  if req.path ≠ "/login" then req
  else
    match getTailscaleUser whois req.remoteAddr with
    | .error _ => req
    | .ok user =>
      { req with
        header := headerSet
          (headerSet req.header "X-Webauth-User" user.LoginName)
          "X-Webauth-Name" user.DisplayName }

/-- The proxy's `Director` hook: run the generic single-host director
first, then `modifyRequest`; the resulting request is what is handed to
the transport (there is no drop branch — every request is forwarded). -/
def proxyDirector (whois : String → Except String WhoIsResponse)
    (originalDirector : Request → Request) (req : Request) : Request :=
  modifyRequest whois (originalDirector req)

/-- The outcome of the TLS-enabled bootstrap goroutine, up to the point
where the plaintext `:80` listener is (or is not) opened: either a fatal
exit from a failed status query, or reaching the `ts.Listen("tcp", ":80")`
call having performed the recorded number of status polls. -/
inductive BootOutcome where
  | fatalPoll (e : String)
  | redirectOpened (polls : Nat)
deriving DecidableEq

/-- The body of the readiness loop in `main`, indexed by the current
loop counter `i` and the remaining attempts (`60 - i` initially): query
the status; a query error is fatal (`log.Fatal`); `"Running"` breaks the
loop and the listener is opened after `i + 1` polls; otherwise sleep and
continue.  When the attempts are exhausted the loop simply exits and the
listener is opened anyway, after `i` polls. -/
def pollFrom (status : Nat → Except String String) (i : Nat) :
    Nat → BootOutcome
  | 0 => .redirectOpened i
  | fuel + 1 =>
    match status i with
    | .error e => .fatalPoll e
    | .ok st =>
      if st = "Running" then .redirectOpened (i + 1)
      else pollFrom status (i + 1) fuel

/-- The TLS-enabled bootstrap goroutine: run the readiness loop for at
most 60 attempts starting from counter 0. -/
def tlsBootstrap (status : Nat → Except String String) : BootOutcome :=
  pollFrom status 0 60

/-- The observable part of the redirect response: status code and
`Location` target. -/
structure RedirectResponse where
  status : Nat
  location : String
deriving DecidableEq

/-- `http.StatusMovedPermanently`. -/
def statusMovedPermanently : Nat := 301

/-- The redirect handler served on the plaintext listener:
`http.Redirect(w, r, fmt.Sprintf("https://%s", name), 301)`.  The
target URL `"https://" ++ name` carries a scheme, so `http.Redirect`
emits it verbatim as the `Location` header; nothing of the request is
consulted. -/
def redirectHandler (name : String) (_r : Request) : RedirectResponse :=
  { status := statusMovedPermanently, location := "https://" ++ name }

/-- The flag values `main` validates before opening any listener. -/
structure Config where
  hostname : String
  backendAddr : String
  useHTTPS : Bool
deriving DecidableEq

/-- How far `main` gets before its first listener: a fatal configuration
or URL-parse error, or reaching the listener-opening code with the
validated configuration. -/
inductive StartupOutcome where
  | fatalMsg (msg : String)
  | listening (cfg : Config)
deriving DecidableEq

/-- The portion of `main` up to the first `ts.Listen` call: hostname must
be non-empty and dot-free, backend address non-empty, and the backend URL
must parse (the parse of `"http://" ++ backendAddr` is abstracted as the
`parseOk` predicate).  `strings.Contains(hostname, ".")` holds exactly
when the character `'.'` occurs in the hostname, so the dot check is
phrased on the string's character list.  Each failure is a `log.Fatal`
before any listener is opened. -/
def mainStartup (parseOk : String → Bool) (cfg : Config) : StartupOutcome :=
  if cfg.hostname = "" ∨ cfg.hostname.data.contains '.' then
    .fatalMsg "missing or invalid --hostname"
  else if cfg.backendAddr = "" then
    .fatalMsg "missing --backend-addr"
  else if !parseOk cfg.backendAddr then
    .fatalMsg "couldn't parse backend address"
  else .listening cfg

/-- The state of a `logknob.LogKnob`: the capability name fixed at
construction, and the three boolean enable sources — the capability
flag (`cap`), the registered environment knob's current value (`env`),
and the manual flag (`manual`). -/
structure LogKnob where
  capName : String
  cap : Bool
  env : Bool
  manual : Bool
deriving DecidableEq

/-- `LogKnob.Set`: store `v` into the manual flag. -/
def LogKnob.set (l : LogKnob) (v : Bool) : LogKnob :=
  { l with manual := v }

/-- The loop body of `UpdateFromNetMap`: scan the self-capabilities and
report whether the knob's capability name occurs. -/
def capMatch (capName : String) : List String → Bool
  | [] => false
  | c :: rest => if c = capName then true else capMatch capName rest

/-- `LogKnob.UpdateFromNetMap`: with an empty capability name, do
nothing; otherwise store into `cap` whether the capability occurs in the
netmap's self-capabilities (`true` on first match, `false` after a full
scan without one). -/
def LogKnob.updateFromNetMap (l : LogKnob) (selfCaps : List String) :
    LogKnob :=
  if l.capName = "" then l
  else { l with cap := capMatch l.capName selfCaps }

/-- Models the registered environment knob changing value: the `env`
source is owned by the environment, not by `Set` or `UpdateFromNetMap`. -/
def LogKnob.withEnv (l : LogKnob) (v : Bool) : LogKnob :=
  { l with env := v }

/-- `LogKnob.shouldLog`: manual OR environment OR capability. -/
def LogKnob.shouldLog (l : LogKnob) : Bool :=
  l.manual || l.env || l.cap

lemma headerGet_headerSet_self (h : Header) (k v : String) :
    headerGet (headerSet h k v) k = [v] := by
  induction h with
  | nil => simp [headerSet, headerGet]
  | cons kv rest ih =>
    obtain ⟨k₀, vs⟩ := kv
    by_cases hk : k₀ = k
    · simp [headerSet, headerGet, hk]
    · simp [headerSet, headerGet, hk, ih]

lemma headerGet_headerSet_ne (h : Header) (k k₂ v : String) (hne : k ≠ k₂) :
    headerGet (headerSet h k v) k₂ = headerGet h k₂ := by
  induction h with
  | nil => simp [headerSet, headerGet, hne]
  | cons kv rest ih =>
    obtain ⟨k₀, vs⟩ := kv
    by_cases hk : k₀ = k
    · subst hk
      simp [headerSet, headerGet, hne]
    · simp [headerSet, headerGet, hk, ih]

lemma modifyRequest_path (whois : String → Except String WhoIsResponse)
    (r : Request) : (modifyRequest whois r).path = r.path := by
  unfold modifyRequest
  split
  · rfl
  · cases getTailscaleUser whois r.remoteAddr <;> rfl

lemma modifyRequest_remoteAddr (whois : String → Except String WhoIsResponse)
    (r : Request) : (modifyRequest whois r).remoteAddr = r.remoteAddr := by
  unfold modifyRequest
  split
  · rfl
  · cases getTailscaleUser whois r.remoteAddr <;> rfl

lemma modifyRequest_ok_header (whois : String → Except String WhoIsResponse)
    (r : Request) (p : UserProfile)
    (hpath : r.path = "/login")
    (hok : getTailscaleUser whois r.remoteAddr = .ok p) :
    (modifyRequest whois r).header =
      headerSet (headerSet r.header "X-Webauth-User" p.LoginName)
        "X-Webauth-Name" p.DisplayName := by
  simp [modifyRequest, hpath, hok]

lemma modifyRequest_err (whois : String → Except String WhoIsResponse)
    (r : Request) (e : ResolutionError)
    (hpath : r.path = "/login")
    (herr : getTailscaleUser whois r.remoteAddr = .error e) :
    modifyRequest whois r = r := by
  simp [modifyRequest, hpath, herr]

/-- Claim C3: for every request whose path is exactly `/login` and whose
peer resolves (via `WhoIs`) to a non-tagged identity with a non-empty
login name, after `modifyRequest` the `X-Webauth-User` header equals
exactly the resolved login name and `X-Webauth-Name` equals exactly the
resolved display name, overwriting any pre-existing values of those two
headers (the initial header list is arbitrary). -/
theorem injectedHeaders_exact (whois : String → Except String WhoIsResponse)
    (req : Request) (w : WhoIsResponse) (p : UserProfile)
    (hpath : req.path = "/login")
    (hw : whois req.remoteAddr = .ok w)
    (htags : w.Node.Tags = [])
    (hprof : w.UserProfile = some p)
    (hlogin : p.LoginName ≠ "") :
    headerGet (modifyRequest whois req).header "X-Webauth-User" =
      [p.LoginName] ∧
    headerGet (modifyRequest whois req).header "X-Webauth-Name" =
      [p.DisplayName] := by
  have hok : getTailscaleUser whois req.remoteAddr = .ok p := by
    simp [getTailscaleUser, hw, htags, hprof, hlogin]
  rw [modifyRequest_ok_header whois req p hpath hok]
  constructor
  · rw [headerGet_headerSet_ne _ _ _ _ (by decide), headerGet_headerSet_self]
  · rw [headerGet_headerSet_self]

/-- Witness for C3 at a concrete request carrying a spoofed
`X-Webauth-User` value, which injection overwrites. -/
theorem injectedHeaders_exact_witness :
    headerGet (modifyRequest
      (fun _ => .ok ⟨⟨[]⟩, some ⟨"a@b.com", "Ann"⟩⟩)
      ⟨"/login", "100.64.0.1:1", [("X-Webauth-User", ["spoofed"])]⟩).header
      "X-Webauth-User" = ["a@b.com"] ∧
    headerGet (modifyRequest
      (fun _ => .ok ⟨⟨[]⟩, some ⟨"a@b.com", "Ann"⟩⟩)
      ⟨"/login", "100.64.0.1:1", [("X-Webauth-User", ["spoofed"])]⟩).header
      "X-Webauth-Name" = ["Ann"] :=
  injectedHeaders_exact _ _ ⟨⟨[]⟩, some ⟨"a@b.com", "Ann"⟩⟩
    ⟨"a@b.com", "Ann"⟩ rfl rfl rfl rfl (by decide)

/-- Claim C4: for every request whose path is not exactly `/login`,
`modifyRequest` returns the request entirely unchanged (so every header
is unchanged), regardless of what identity resolution would return. -/
theorem nonLoginUnchanged (whois : String → Except String WhoIsResponse)
    (req : Request) (hpath : req.path ≠ "/login") :
    modifyRequest whois req = req := by
  simp [modifyRequest, hpath]

/-- Witness for C4 at a concrete `/dashboard` request whose peer would
resolve successfully. -/
theorem nonLoginUnchanged_witness :
    modifyRequest (fun _ => .ok ⟨⟨[]⟩, some ⟨"a@b.com", "Ann"⟩⟩)
      ⟨"/dashboard", "100.64.0.1:1", []⟩ =
    ⟨"/dashboard", "100.64.0.1:1", []⟩ :=
  nonLoginUnchanged _ _ (by decide)

/-- Claim C5: for every `/login` request whose identity resolution fails
(with any of the three failure classes), `modifyRequest` returns the
request unchanged — neither `X-Webauth-User` nor `X-Webauth-Name` is set
or modified — and the Director still forwards that unchanged request. -/
theorem loginFailureUnchanged (whois : String → Except String WhoIsResponse)
    (req : Request) (e : ResolutionError)
    (hpath : req.path = "/login")
    (herr : getTailscaleUser whois req.remoteAddr = .error e) :
    modifyRequest whois req = req ∧
    proxyDirector whois (fun r => r) req = req := by
  have h1 := modifyRequest_err whois req e hpath herr
  exact ⟨h1, h1⟩

/-- Witness for C5 at a concrete `/login` request from a tagged node. -/
theorem loginFailureUnchanged_witness :
    modifyRequest (fun _ => .ok ⟨⟨["tag:server"]⟩, some ⟨"a@b.com", "Ann"⟩⟩)
      ⟨"/login", "100.64.0.1:1", []⟩ = ⟨"/login", "100.64.0.1:1", []⟩ ∧
    proxyDirector (fun _ => .ok ⟨⟨["tag:server"]⟩, some ⟨"a@b.com", "Ann"⟩⟩)
      (fun r => r) ⟨"/login", "100.64.0.1:1", []⟩ =
      ⟨"/login", "100.64.0.1:1", []⟩ :=
  loginFailureUnchanged _ _ ResolutionError.taggedPrincipal rfl rfl

/-- Claim C7: header injection is idempotent — for every `/login`
request, applying `modifyRequest` twice (the same `WhoIs` view resolving
the same identity on both passes) leaves `X-Webauth-User` and
`X-Webauth-Name` with exactly the same values as applying it once. -/
theorem injectIdempotent (whois : String → Except String WhoIsResponse)
    (req : Request) (hpath : req.path = "/login") :
    headerGet (modifyRequest whois (modifyRequest whois req)).header
      "X-Webauth-User" =
      headerGet (modifyRequest whois req).header "X-Webauth-User" ∧
    headerGet (modifyRequest whois (modifyRequest whois req)).header
      "X-Webauth-Name" =
      headerGet (modifyRequest whois req).header "X-Webauth-Name" := by
  cases hres : getTailscaleUser whois req.remoteAddr with
  | error e =>
    have h1 := modifyRequest_err whois req e hpath hres
    rw [h1, h1]
    exact ⟨rfl, rfl⟩
  | ok p =>
    have hp1 : (modifyRequest whois req).path = "/login" := by
      rw [modifyRequest_path]; exact hpath
    have ha1 : (modifyRequest whois req).remoteAddr = req.remoteAddr :=
      modifyRequest_remoteAddr whois req
    have e1 := modifyRequest_ok_header whois req p hpath hres
    have e2 := modifyRequest_ok_header whois (modifyRequest whois req) p hp1
      (by rw [ha1]; exact hres)
    rw [e2]
    constructor
    · rw [headerGet_headerSet_ne _ _ _ _ (by decide), headerGet_headerSet_self,
        e1, headerGet_headerSet_ne _ _ _ _ (by decide),
        headerGet_headerSet_self]
    · rw [headerGet_headerSet_self, e1, headerGet_headerSet_self]

/-- Witness for C7 at a concrete `/login` request with a resolvable
identity. -/
theorem injectIdempotent_witness :
    headerGet (modifyRequest (fun _ => .ok ⟨⟨[]⟩, some ⟨"a@b.com", "Ann"⟩⟩)
      (modifyRequest (fun _ => .ok ⟨⟨[]⟩, some ⟨"a@b.com", "Ann"⟩⟩)
        ⟨"/login", "100.64.0.1:1", []⟩)).header "X-Webauth-User" =
    headerGet (modifyRequest (fun _ => .ok ⟨⟨[]⟩, some ⟨"a@b.com", "Ann"⟩⟩)
      ⟨"/login", "100.64.0.1:1", []⟩).header "X-Webauth-User" ∧
    headerGet (modifyRequest (fun _ => .ok ⟨⟨[]⟩, some ⟨"a@b.com", "Ann"⟩⟩)
      (modifyRequest (fun _ => .ok ⟨⟨[]⟩, some ⟨"a@b.com", "Ann"⟩⟩)
        ⟨"/login", "100.64.0.1:1", []⟩)).header "X-Webauth-Name" =
    headerGet (modifyRequest (fun _ => .ok ⟨⟨[]⟩, some ⟨"a@b.com", "Ann"⟩⟩)
      ⟨"/login", "100.64.0.1:1", []⟩).header "X-Webauth-Name" :=
  injectIdempotent (fun _ => .ok ⟨⟨[]⟩, some ⟨"a@b.com", "Ann"⟩⟩)
    ⟨"/login", "100.64.0.1:1", []⟩ rfl

lemma pollFrom_running (status : Nat → Except String String) :
    ∀ (j i fuel : Nat), j < fuel →
    (∀ m, m < j → ∃ s, status (i + m) = .ok s ∧ s ≠ "Running") →
    status (i + j) = .ok "Running" →
    pollFrom status i fuel = .redirectOpened (i + j + 1) := by
  intro j
  induction j with
  | zero =>
    intro i fuel hfuel _ hrun
    cases fuel with
    | zero => omega
    | succ f =>
      simp only [Nat.add_zero] at hrun
      simp only [pollFrom, hrun]
      simp
  | succ j ih =>
    intro i fuel hfuel hpre hrun
    cases fuel with
    | zero => omega
    | succ f =>
      obtain ⟨s, hs, hsne⟩ := hpre 0 (Nat.succ_pos j)
      simp only [Nat.add_zero] at hs
      simp only [pollFrom, hs]
      rw [if_neg hsne]
      have hrec := ih (i + 1) f (by omega)
        (fun m hm => by
          have h := hpre (m + 1) (by omega)
          rwa [show i + (m + 1) = i + 1 + m from by omega] at h)
        (by rw [show i + 1 + j = i + (j + 1) from by omega]; exact hrun)
      rw [hrec]
      congr 1
      omega

lemma pollFrom_exhausted (status : Nat → Except String String) :
    ∀ (fuel i : Nat),
    (∀ m, m < fuel → ∃ s, status (i + m) = .ok s ∧ s ≠ "Running") →
    pollFrom status i fuel = .redirectOpened (i + fuel) := by
  intro fuel
  induction fuel with
  | zero => intro i _; simp [pollFrom]
  | succ f ih =>
    intro i hpre
    obtain ⟨s, hs, hsne⟩ := hpre 0 (Nat.succ_pos f)
    simp only [Nat.add_zero] at hs
    simp only [pollFrom, hs]
    rw [if_neg hsne]
    have hrec := ih (i + 1)
      (fun m hm => by
        have h := hpre (m + 1) (by omega)
        rwa [show i + (m + 1) = i + 1 + m from by omega] at h)
    rw [hrec]
    congr 1
    omega

lemma pollFrom_error (status : Nat → Except String String) :
    ∀ (j i fuel : Nat) (e : String), j < fuel →
    (∀ m, m < j → ∃ s, status (i + m) = .ok s ∧ s ≠ "Running") →
    status (i + j) = .error e →
    pollFrom status i fuel = .fatalPoll e := by
  intro j
  induction j with
  | zero =>
    intro i fuel e hfuel _ herr
    cases fuel with
    | zero => omega
    | succ f =>
      simp only [Nat.add_zero] at herr
      simp only [pollFrom, herr]
  | succ j ih =>
    intro i fuel e hfuel hpre herr
    cases fuel with
    | zero => omega
    | succ f =>
      obtain ⟨s, hs, hsne⟩ := hpre 0 (Nat.succ_pos j)
      simp only [Nat.add_zero] at hs
      simp only [pollFrom, hs]
      rw [if_neg hsne]
      exact ih (i + 1) f e (by omega)
        (fun m hm => by
          have h := hpre (m + 1) (by omega)
          rwa [show i + (m + 1) = i + 1 + m from by omega] at h)
        (by rw [show i + 1 + j = i + (j + 1) from by omega]; exact herr)

/-- Claim C1 counterexample: the constant status sequence that always
reports `"Starting"` never reaches `"Running"`, yet the bootstrap does
not fail fatally — it exits the loop after 60 polls and proceeds to open
the plaintext redirect listener. -/
theorem readinessPoll_counterexample :
    tlsBootstrap (fun _ => .ok "Starting") = .redirectOpened 60 ∧
    ∀ e, tlsBootstrap (fun _ => .ok "Starting") ≠ .fatalPoll e := by
  refine ⟨rfl, ?_⟩
  intro e h
  have h60 : tlsBootstrap (fun _ => .ok "Starting") = .redirectOpened 60 := rfl
  rw [h60] at h
  cases h

/-- Claim C1 (amended): for every status sequence that first reports
`"Running"` on attempt `k` with `1 ≤ k ≤ 60`, the plaintext redirect
listener is opened after exactly `k` polls and not before; and for every
status sequence whose first 60 polls all succeed without reporting
`"Running"`, the loop exhausts its 60 attempts and the redirect listener
is opened anyway, after exactly 60 polls — startup does not fail
fatally in that case. -/
theorem readinessPoll_amended :
    (∀ (status : Nat → Except String String) (k : Nat), 1 ≤ k → k ≤ 60 →
      (∀ m, m < k - 1 → ∃ s, status m = .ok s ∧ s ≠ "Running") →
      status (k - 1) = .ok "Running" →
      tlsBootstrap status = .redirectOpened k) ∧
    (∀ status : Nat → Except String String,
      (∀ m, m < 60 → ∃ s, status m = .ok s ∧ s ≠ "Running") →
      tlsBootstrap status = .redirectOpened 60) := by
  constructor
  · intro status k hk1 hk60 hpre hrun
    have h := pollFrom_running status (k - 1) 0 60 (by omega)
      (fun m hm => by simpa using hpre m hm)
      (by simpa using hrun)
    rw [show tlsBootstrap status = pollFrom status 0 60 from rfl, h]
    congr 1
    omega
  · intro status hpre
    have h := pollFrom_exhausted status 60 0
      (fun m hm => by simpa using hpre m hm)
    rw [show tlsBootstrap status = pollFrom status 0 60 from rfl, h]

/-- Witness for the amended C1: `"Running"` first reported on attempt 3
opens the redirect listener after exactly 3 polls. -/
theorem readinessPoll_amended_witness :
    tlsBootstrap (fun i => if i < 2 then .ok "Starting" else .ok "Running") =
      .redirectOpened 3 :=
  readinessPoll_amended.1
    (fun i => if i < 2 then .ok "Starting" else .ok "Running") 3
    (by omega) (by omega)
    (fun m hm => ⟨"Starting", by simp [show m < 2 from by omega], by decide⟩)
    (by norm_num)

/-- Claim C10: if, during the readiness poll, every attempt before `j`
succeeds without reporting `"Running"` and attempt `j` (0-based,
`j < 60`) returns an error, the bootstrap exits fatally with that error
immediately — the plaintext redirect listener is never opened and the
error is not retried. -/
theorem statusErrorFatal (status : Nat → Except String String)
    (j : Nat) (e : String) (hj : j < 60)
    (hpre : ∀ m, m < j → ∃ s, status m = .ok s ∧ s ≠ "Running")
    (herr : status j = .error e) :
    tlsBootstrap status = .fatalPoll e ∧
    ∀ n, tlsBootstrap status ≠ .redirectOpened n := by
  have hfatal := pollFrom_error status j 0 60 e hj
    (fun m hm => by simpa using hpre m hm)
    (by simpa using herr)
  have htls : tlsBootstrap status = .fatalPoll e := by
    rw [show tlsBootstrap status = pollFrom status 0 60 from rfl, hfatal]
  refine ⟨htls, ?_⟩
  intro n h
  rw [htls] at h
  cases h

/-- Witness for C10: the second status query fails, so the bootstrap is
fatal after two polls even though 58 attempts remained. -/
theorem statusErrorFatal_witness :
    tlsBootstrap (fun i =>
      if i = 0 then .ok "Starting" else .error "status query failed") =
      .fatalPoll "status query failed" :=
  (statusErrorFatal
    (fun i => if i = 0 then .ok "Starting" else .error "status query failed")
    1 "status query failed" (by omega)
    (fun m hm => ⟨"Starting", by simp [show m = 0 from by omega], by decide⟩)
    (by norm_num)).1

/-- Claim C2 counterexample: for a request to `/dashboard`, the redirect
target is `https://svc.tailnet.ts.net` — the request's path is dropped,
so the target is not the HTTPS equivalent of the request's path. -/
theorem redirectTarget_counterexample :
    redirectHandler "svc.tailnet.ts.net"
      ⟨"/dashboard", "100.64.0.1:1", []⟩ =
      ⟨301, "https://svc.tailnet.ts.net"⟩ ∧
    "https://svc.tailnet.ts.net" ≠ "https://svc.tailnet.ts.net/dashboard" :=
  ⟨rfl, by decide⟩

/-- Claim C2 (amended): every response of the redirect handler is an
HTTP 301 whose target is exactly `"https://" ++ name` — the resolved
secure name as host with an empty path; the request (in particular its
path) does not influence the response at all. -/
theorem redirectTarget_amended (name : String) (r : Request) :
    (redirectHandler name r).status = 301 ∧
    (redirectHandler name r).location = "https://" ++ name ∧
    ∀ r₂ : Request, redirectHandler name r = redirectHandler name r₂ :=
  ⟨rfl, rfl, fun _ => rfl⟩

/-- Claim C6: `getTailscaleUser` fails exactly on (a) a `WhoIs` error
(classified `lookupFailed`, wrapping the underlying error), (b) a tagged
node (classified `taggedPrincipal`, regardless of the profile), or (c) a
missing profile or empty login name (classified `unidentifiedUser`),
checked in that order with a single `WhoIs` call; success happens exactly
for an untagged node with a present profile and non-empty login name, so
a returned identity is never a tagged principal. -/
theorem getTailscaleUser_classification
    (whois : String → Except String WhoIsResponse) (ip : String) :
    (∀ e, whois ip = .error e →
      getTailscaleUser whois ip = .error (.lookupFailed e)) ∧
    (∀ w, whois ip = .ok w → w.Node.Tags ≠ [] →
      getTailscaleUser whois ip = .error .taggedPrincipal) ∧
    (∀ w, whois ip = .ok w → w.Node.Tags = [] →
      (w.UserProfile = none ∨
        ∃ p, w.UserProfile = some p ∧ p.LoginName = "") →
      getTailscaleUser whois ip = .error .unidentifiedUser) ∧
    (∀ p, getTailscaleUser whois ip = .ok p ↔
      ∃ w, whois ip = .ok w ∧ w.Node.Tags = [] ∧
        w.UserProfile = some p ∧ p.LoginName ≠ "") := by
  refine ⟨?_, ?_, ?_, ?_⟩
  · intro e he
    simp [getTailscaleUser, he]
  · intro w hw ht
    simp [getTailscaleUser, hw, ht]
  · intro w hw ht hprof
    rcases hprof with hnone | ⟨p, hp, hlogin⟩
    · simp [getTailscaleUser, hw, ht, hnone]
    · simp [getTailscaleUser, hw, ht, hp, hlogin]
  · intro p
    constructor
    · intro h
      cases hwi : whois ip with
      | error e => simp [getTailscaleUser, hwi] at h
      | ok w =>
        simp only [getTailscaleUser, hwi] at h
        by_cases ht : w.Node.Tags.length ≠ 0
        · simp [ht] at h
        · simp only [ht, if_false] at h
          cases hup : w.UserProfile with
          | none => rw [hup] at h; cases h
          | some q =>
            rw [hup] at h
            by_cases hl : q.LoginName = ""
            · simp [hl] at h
            · simp [hl] at h
              subst h
              exact ⟨w, rfl, by simpa using ht, hup, hl⟩
    · rintro ⟨w, hw, ht, hp, hl⟩
      simp [getTailscaleUser, hw, ht, hp, hl]

/-- Witness for C6: a concrete untagged peer with a named profile
resolves to exactly that profile. -/
theorem getTailscaleUser_classification_witness :
    getTailscaleUser (fun _ => .ok ⟨⟨[]⟩, some ⟨"a@b.com", "Ann"⟩⟩)
      "100.64.0.1:1" = .ok ⟨"a@b.com", "Ann"⟩ :=
  ((getTailscaleUser_classification
      (fun _ => .ok ⟨⟨[]⟩, some ⟨"a@b.com", "Ann"⟩⟩)
      "100.64.0.1:1").2.2.2 ⟨"a@b.com", "Ann"⟩).mpr
    ⟨⟨⟨[]⟩, some ⟨"a@b.com", "Ann"⟩⟩, rfl, rfl, rfl, by decide⟩

/-- Claim C8: for every configuration whose hostname is empty or contains
a dot, or whose backend address is empty, `main` exits fatally before any
listener is opened; conversely, reaching the listener-opening code is
only possible with a non-empty dot-free hostname and a non-empty backend
address. -/
theorem configValidation (parseOk : String → Bool) (cfg : Config) :
    (cfg.hostname = "" ∨ cfg.hostname.data.contains '.' = true ∨
        cfg.backendAddr = "" →
      ∃ m, mainStartup parseOk cfg = .fatalMsg m) ∧
    (∀ c, mainStartup parseOk cfg = .listening c →
      cfg.hostname ≠ "" ∧ cfg.hostname.data.contains '.' = false ∧
        cfg.backendAddr ≠ "") := by
  constructor
  · intro h
    unfold mainStartup
    split_ifs with h1 h2 h3
    · exact ⟨_, rfl⟩
    · exact ⟨_, rfl⟩
    · exact ⟨_, rfl⟩
    · rcases h with h | h | h
      · exact absurd (Or.inl h) h1
      · exact absurd (Or.inr h) h1
      · exact absurd h h2
  · intro c hc
    unfold mainStartup at hc
    split_ifs at hc with h1 h2 h3
    push_neg at h1
    exact ⟨h1.1, by simpa using h1.2, h2⟩

/-- Witness for C8: a hostname containing a dot is rejected fatally. -/
theorem configValidation_witness :
    ∃ m, mainStartup (fun _ => true)
      ⟨"svc.example", "127.0.0.1:3000", false⟩ = .fatalMsg m :=
  (configValidation (fun _ => true)
    ⟨"svc.example", "127.0.0.1:3000", false⟩).1
    (Or.inr (Or.inl (by decide)))

/-- Claim C9: for every knob state, `shouldLog` is exactly
`manual OR env OR cap`; `Set` writes only the manual flag,
`UpdateFromNetMap` writes only the capability flag (storing, for a knob
with a configured capability name, whether the name occurs in the
netmap's self-capabilities), and the environment source changes only the
environment flag — so the three enable sources are independently
settable. -/
theorem logKnob_contract (l : LogKnob) :
    l.shouldLog = (l.manual || l.env || l.cap) ∧
    (∀ v, (l.set v).manual = v ∧ (l.set v).env = l.env ∧
      (l.set v).cap = l.cap ∧ (l.set v).capName = l.capName) ∧
    (∀ v, (l.withEnv v).env = v ∧ (l.withEnv v).manual = l.manual ∧
      (l.withEnv v).cap = l.cap ∧ (l.withEnv v).capName = l.capName) ∧
    (∀ caps, (l.updateFromNetMap caps).manual = l.manual ∧
      (l.updateFromNetMap caps).env = l.env ∧
      (l.updateFromNetMap caps).capName = l.capName) ∧
    (l.capName ≠ "" → ∀ caps,
      (l.updateFromNetMap caps).cap = capMatch l.capName caps) := by
  refine ⟨rfl, fun v => ⟨rfl, rfl, rfl, rfl⟩, fun v => ⟨rfl, rfl, rfl, rfl⟩,
    fun caps => ?_, fun hname caps => ?_⟩
  · unfold LogKnob.updateFromNetMap
    split_ifs <;> exact ⟨rfl, rfl, rfl⟩
  · unfold LogKnob.updateFromNetMap
    rw [if_neg hname]

/-- Witness for C9: a knob with a configured capability name picks the
capability flag up from the netmap capability list. -/
theorem logKnob_contract_witness :
    ((⟨"tailscale.com/cap/verbose-logging", false, false, false⟩ :
        LogKnob).updateFromNetMap
      ["tailscale.com/cap/verbose-logging"]).cap =
      capMatch "tailscale.com/cap/verbose-logging"
        ["tailscale.com/cap/verbose-logging"] :=
  (logKnob_contract
    ⟨"tailscale.com/cap/verbose-logging", false, false, false⟩).2.2.2.2
    (by decide) ["tailscale.com/cap/verbose-logging"]
